import Mathlib

/-!
# Verification of the desstv SSTV decoder

A shallow embedding of the `desstv` SSTV decoder (files `spec.py` and
`decode.py`).  Python floats are modelled as exact rationals (`ℚ`), Python's
banker's rounding `round` as `pyRound`, sample indices as `ℤ`, and the FFT
peak-frequency estimator `SSTVDecoder._peak_fft_freq` as an uninterpreted pure
oracle `pf : ℤ → ℤ → ℚ` mapping a slice `[a:b)` of the sample buffer to its
estimated peak frequency (the estimator is a pure function of the slice).
All control flow, index arithmetic and bounds checks are translated from the
source.
-/

/-- Python 3 `round`: round half to even (banker's rounding), on rationals. -/
def pyRound (q : ℚ) : ℤ :=
  let f := ⌊q⌋
  let r := q - f
  if r < 1/2 then f
  else if 1/2 < r then f + 1
  else if f % 2 = 0 then f else f + 1

/-- The color formats of `spec.py` (`COL_FMT`). -/
inductive COL_FMT where
  | RGB
  | GBR
  | YUV
  | BW
deriving DecidableEq, Repr

/-- A fully derived mode descriptor: the attributes an instance of one of the
mode classes of `spec.py` exposes after `martin_additional` /
`scottie_additional` / the Robot class bodies have run. -/
structure Mode where
  NAME : String
  COLOR : COL_FMT
  SYNC_PULSE : ℚ
  SYNC_PORCH : ℚ
  SEP_PULSE : ℚ
  SEP_PORCH : ℚ
  CHAN_COUNT : ℕ
  CHAN_SYNC : ℕ
  HAS_START_SYNC : Bool
  HAS_HALF_SCAN : Bool
  HAS_ALT_SCAN : Bool
  LINE_WIDTH : ℕ
  LINE_COUNT : ℕ
  SCAN_TIME : ℚ
  WINDOW_FACTOR : ℚ
  CHAN_TIME : ℚ
  CHAN_OFFSETS : List ℚ
  LINE_TIME : ℚ
  PIXEL_TIME : ℚ
  HALF_SCAN_TIME : ℚ
  HALF_PIXEL_TIME : ℚ

namespace Martin

def SYNC_PULSE : ℚ := 0.004862
def SYNC_PORCH : ℚ := 0.000572
def SEP_PULSE : ℚ := 0.000572

end Martin

/-- `spec.py` `martin_additional`: derives the per-mode fields of a Martin
mode from the family constants and the per-variant base fields. -/
def martin_additional (NAME : String) (LINE_WIDTH LINE_COUNT : ℕ)
    (SCAN_TIME WINDOW_FACTOR : ℚ) : Mode :=
  let CHAN_TIME := Martin.SEP_PULSE + SCAN_TIME
  let o0 := Martin.SYNC_PULSE + Martin.SYNC_PORCH
  let o1 := o0 + CHAN_TIME
  let o2 := o1 + CHAN_TIME
  { NAME := NAME
    COLOR := COL_FMT.GBR
    SYNC_PULSE := Martin.SYNC_PULSE
    SYNC_PORCH := Martin.SYNC_PORCH
    SEP_PULSE := Martin.SEP_PULSE
    SEP_PORCH := 0
    CHAN_COUNT := 3
    CHAN_SYNC := 0
    HAS_START_SYNC := false
    HAS_HALF_SCAN := false
    HAS_ALT_SCAN := false
    LINE_WIDTH := LINE_WIDTH
    LINE_COUNT := LINE_COUNT
    SCAN_TIME := SCAN_TIME
    WINDOW_FACTOR := WINDOW_FACTOR
    CHAN_TIME := CHAN_TIME
    CHAN_OFFSETS := [o0, o1, o2]
    LINE_TIME := o2 + CHAN_TIME
    PIXEL_TIME := SCAN_TIME / LINE_WIDTH
    HALF_SCAN_TIME := 0
    HALF_PIXEL_TIME := 0 }

def M1 : Mode := martin_additional "Martin 1" 320 256 0.146432 2.34

def M2 : Mode := martin_additional "Martin 2" 320 256 0.073216 4.68

namespace Scottie

def SYNC_PULSE : ℚ := 0.009000
def SYNC_PORCH : ℚ := 0.001500
def SEP_PULSE : ℚ := 0.001500

end Scottie

/-- `spec.py` `scottie_additional`: derives the per-mode fields of a Scottie
mode.  Note that `CHAN_OFFSETS[2]` (the sync channel) is the smallest offset:
the red channel directly follows the mid-line sync pulse. -/
def scottie_additional (NAME : String) (LINE_WIDTH LINE_COUNT : ℕ)
    (SCAN_TIME WINDOW_FACTOR : ℚ) : Mode :=
  let CHAN_TIME := Scottie.SEP_PULSE + SCAN_TIME
  let o0 := Scottie.SYNC_PULSE + Scottie.SYNC_PORCH + CHAN_TIME
  let o1 := o0 + CHAN_TIME
  let o2 := Scottie.SYNC_PULSE + Scottie.SYNC_PORCH
  { NAME := NAME
    COLOR := COL_FMT.GBR
    SYNC_PULSE := Scottie.SYNC_PULSE
    SYNC_PORCH := Scottie.SYNC_PORCH
    SEP_PULSE := Scottie.SEP_PULSE
    SEP_PORCH := 0
    CHAN_COUNT := 3
    CHAN_SYNC := 2
    HAS_START_SYNC := true
    HAS_HALF_SCAN := false
    HAS_ALT_SCAN := false
    LINE_WIDTH := LINE_WIDTH
    LINE_COUNT := LINE_COUNT
    SCAN_TIME := SCAN_TIME
    WINDOW_FACTOR := WINDOW_FACTOR
    CHAN_TIME := CHAN_TIME
    CHAN_OFFSETS := [o0, o1, o2]
    LINE_TIME := Scottie.SYNC_PULSE + 3 * CHAN_TIME
    PIXEL_TIME := SCAN_TIME / LINE_WIDTH
    HALF_SCAN_TIME := 0
    HALF_PIXEL_TIME := 0 }

def S1 : Mode := scottie_additional "Scottie 1" 320 256 0.138240 2.48

def S2 : Mode := scottie_additional "Scottie 2" 320 256 0.088064 3.82

def SDX : Mode := scottie_additional "Scottie DX" 320 256 0.345600 0.98

namespace RobotColor

def SYNC_PULSE : ℚ := 0.009000
def SYNC_PORCH : ℚ := 0.003000
def SEP_PULSE : ℚ := 0.004500
def SEP_PORCH : ℚ := 0.001500

end RobotColor

/-- `spec.py` class `R36` (Robot 36 Color) with its class-body derivations. -/
def R36 : Mode :=
  let SCAN_TIME : ℚ := 0.088000
  let HALF_SCAN_TIME := SCAN_TIME / 2
  let CHAN_TIME := RobotColor.SEP_PULSE + SCAN_TIME
  let o0 := RobotColor.SYNC_PULSE + RobotColor.SYNC_PORCH
  let o1 := o0 + CHAN_TIME + RobotColor.SEP_PORCH
  { NAME := "Robot 36 Color"
    COLOR := COL_FMT.YUV
    SYNC_PULSE := RobotColor.SYNC_PULSE
    SYNC_PORCH := RobotColor.SYNC_PORCH
    SEP_PULSE := RobotColor.SEP_PULSE
    SEP_PORCH := RobotColor.SEP_PORCH
    CHAN_COUNT := 2
    CHAN_SYNC := 0
    HAS_START_SYNC := false
    HAS_HALF_SCAN := true
    HAS_ALT_SCAN := true
    LINE_WIDTH := 320
    LINE_COUNT := 240
    SCAN_TIME := SCAN_TIME
    WINDOW_FACTOR := 7.70
    CHAN_TIME := CHAN_TIME
    CHAN_OFFSETS := [o0, o1]
    LINE_TIME := o1 + HALF_SCAN_TIME
    PIXEL_TIME := SCAN_TIME / 320
    HALF_SCAN_TIME := HALF_SCAN_TIME
    HALF_PIXEL_TIME := HALF_SCAN_TIME / 320 }

/-- `spec.py` class `R72` (Robot 72 Color) with its class-body derivations. -/
def R72 : Mode :=
  let SCAN_TIME : ℚ := 0.138000
  let HALF_SCAN_TIME := SCAN_TIME / 2
  let CHAN_TIME := RobotColor.SEP_PULSE + SCAN_TIME
  let HALF_CHAN_TIME := RobotColor.SEP_PULSE + HALF_SCAN_TIME
  let o0 := RobotColor.SYNC_PULSE + RobotColor.SYNC_PORCH
  let o1 := o0 + CHAN_TIME + RobotColor.SEP_PORCH
  let o2 := o1 + HALF_CHAN_TIME + RobotColor.SEP_PORCH
  { NAME := "Robot 72 Color"
    COLOR := COL_FMT.YUV
    SYNC_PULSE := RobotColor.SYNC_PULSE
    SYNC_PORCH := RobotColor.SYNC_PORCH
    SEP_PULSE := RobotColor.SEP_PULSE
    SEP_PORCH := RobotColor.SEP_PORCH
    CHAN_COUNT := 3
    CHAN_SYNC := 0
    HAS_START_SYNC := false
    HAS_HALF_SCAN := true
    HAS_ALT_SCAN := false
    LINE_WIDTH := 320
    LINE_COUNT := 240
    SCAN_TIME := SCAN_TIME
    WINDOW_FACTOR := 4.88
    CHAN_TIME := CHAN_TIME
    CHAN_OFFSETS := [o0, o1, o2]
    LINE_TIME := o2 + HALF_SCAN_TIME
    PIXEL_TIME := SCAN_TIME / 320
    HALF_SCAN_TIME := HALF_SCAN_TIME
    HALF_PIXEL_TIME := HALF_SCAN_TIME / 320 }

/-- `spec.py` `VIS_MAP`: the registry mapping a VIS code to its mode. -/
def VIS_MAP (v : ℕ) : Option Mode :=
  if v = 8 then some R36
  else if v = 12 then some R72
  else if v = 40 then some M2
  else if v = 44 then some M1
  else if v = 56 then some S2
  else if v = 60 then some S1
  else if v = 76 then some SDX
  else none

/-- The seven descriptors held by `VIS_MAP`, in registry order. -/
def registryModes : List Mode := [R36, R72, M2, M1, S2, S1, SDX]

def LEADER_TONE_SIZE : ℚ := 0.300
def BREAK_SIZE : ℚ := 0.010
def VIS_BIT_SIZE : ℚ := 0.030
def BREAK_OFFSET : ℚ := LEADER_TONE_SIZE
def SECOND_LEADER_OFFSET : ℚ := BREAK_OFFSET + BREAK_SIZE
def VIS_START_BIT_OFFSET : ℚ := BREAK_OFFSET + SECOND_LEADER_OFFSET
def HDR_SIZE : ℚ := VIS_START_BIT_OFFSET + VIS_BIT_SIZE
def SEARCH_WINDOW_SIZE : ℚ := 0.010
def JUMP_SIZE : ℚ := 0.002

/-- `decode.py` `calc_lum`: frequency (1500-2300 Hz) to luminance byte. -/
def calc_lum (freq : ℚ) : ℤ :=
  let lum := pyRound ((freq - 1500) / 3.1372549)
  min (max lum 0) 255

/-- Modelled from the spec's words for comparison with `calc_lum`: the claimed
affine transform `round((freq - 1500) / ((2300 - 1500) / 255))` clamped to
`[0, 255]`, with the divisor written exactly as `(2300 - 1500) / 255`. -/
def claimedLum (freq : ℚ) : ℤ :=
  let lum := pyRound ((freq - 1500) / ((2300 - 1500) / 255))
  min (max lum 0) 255

/-- `decode.py` `barycentric_peak_interp`: sub-bin peak refinement.  The
neighbour lookups saturate at the array edges (`max(0, x-1)` is the saturated
`x - 1` of `ℕ`). -/
def barycentric_peak_interp (bins : List ℚ) (x : ℕ) : ℚ :=
  let left := bins.getD (x - 1) 0
  let right := bins.getD (min (bins.length - 1) (x + 1)) 0
  let denom := left + bins.getD x 0 + right
  if denom = 0 then 0
  else (right - left) / denom + x

/-- The sync-pulse search window of `SSTVDecoder._align_sync`:
`round(mode.SYNC_PULSE * 1.4 * sample_rate)` samples. -/
def sync_window (m : Mode) (rate : ℚ) : ℤ :=
  pyRound (m.SYNC_PULSE * 1.4 * rate)

/-- The `for current_sample in range(align_start, align_stop)` loop of
`SSTVDecoder._align_sync`, with `fuel = align_stop - align_start` (which is
at least 1 whenever the loop is entered): slides the window one sample at a
time and stops at the first position whose peak frequency exceeds 1350 Hz;
if no position triggers, the loop variable ends at `align_stop - 1`. -/
def sync_scan (pf : ℤ → ℤ → ℚ) (w : ℤ) : ℤ → ℕ → ℤ
  | cur, 0 => cur
  | cur, 1 => cur
  | cur, n + 2 =>
    if 1350 < pf cur (cur + w) then cur else sync_scan pf w (cur + 1) (n + 1)

/-- `SSTVDecoder._align_sync`: returns the sample of the beginning (or end)
of a sync pulse near `align_start`, or `none` at end of audio. -/
def align_sync (pf : ℤ → ℤ → ℚ) (m : Mode) (rate : ℚ) (nsamples : ℕ)
    (align_start : ℤ) (start_of_sync : Bool) : Option ℤ :=
  let w := sync_window m rate
  let align_stop := (nsamples : ℤ) - w
  if align_stop ≤ align_start then none
  else
    let current := sync_scan pf w align_start (align_stop - align_start).toNat
    let end_sync := current + Int.fdiv w 2
    some (if start_of_sync then end_sync - pyRound (m.SYNC_PULSE * rate) else end_sync)

def jump_size (rate : ℚ) : ℤ := pyRound (JUMP_SIZE * rate)

def header_size (rate : ℚ) : ℤ := pyRound (HDR_SIZE * rate)

/-- The four-tone test of one candidate position in
`SSTVDecoder._find_header`: the sub-windows are slices of
`samples[current : current + header_size]`, so their upper ends are clamped
by the header slice length. -/
def headerQualifies (pf : ℤ → ℤ → ℚ) (rate : ℚ) (cur : ℤ) : Bool :=
  let ws := pyRound (SEARCH_WINDOW_SIZE * rate)
  let hs := header_size rate
  let break_offset := pyRound (BREAK_OFFSET * rate)
  let leader_2_offset := pyRound (SECOND_LEADER_OFFSET * rate)
  let vis_start_offset := pyRound (VIS_START_BIT_OFFSET * rate)
  decide (|pf cur (cur + min ws hs) - 1900| < 50) &&
  decide (|pf (cur + break_offset) (cur + min (break_offset + ws) hs) - 1200| < 50) &&
  decide (|pf (cur + leader_2_offset) (cur + min (leader_2_offset + ws) hs) - 1900| < 50) &&
  decide (|pf (cur + vis_start_offset) (cur + min (vis_start_offset + ws) hs) - 1200| < 50)

/-- The `for current_sample in range(0, len(samples) - header_size, jump_size)`
loop of `SSTVDecoder._find_header`, fuel-bounded (enough fuel is supplied at
the call site whenever `1 ≤ jump`). -/
def header_scan (pf : ℤ → ℤ → ℚ) (rate : ℚ) (jump stop : ℤ) : ℤ → ℕ → Option ℤ
  | _, 0 => none
  | cur, fuel + 1 =>
    if cur < stop then
      if headerQualifies pf rate cur then some cur
      else header_scan pf rate jump stop (cur + jump) fuel
    else none

/-- `SSTVDecoder._find_header`: first qualifying window position plus the
header size, or `none`. -/
def find_header (pf : ℤ → ℤ → ℚ) (rate : ℚ) (nsamples : ℕ) : Option ℤ :=
  let stop := (nsamples : ℤ) - header_size rate
  (header_scan pf rate (jump_size rate) stop 0 (stop.toNat + 1)).map (· + header_size rate)

/-- One VIS bit of `SSTVDecoder._decode_vis`: slot `i` codes 1 iff its peak
frequency is at most 1200 Hz (1100 Hz codes 1, 1300 Hz codes 0). -/
def vis_bit (pf : ℤ → ℤ → ℚ) (rate : ℚ) (vis_start : ℤ) (i : ℕ) : ℕ :=
  let bit_size := pyRound (VIS_BIT_SIZE * rate)
  let bit_offset := vis_start + (i : ℤ) * bit_size
  if pf bit_offset (bit_offset + bit_size) ≤ 1200 then 1 else 0

/-- `SSTVDecoder._decode_vis`: reads the 8 VIS tone slots, checks even
parity, reassembles the 7 data bits LSB-first (`vis_bits[-2::-1]`) and
resolves the value through `VIS_MAP`. -/
def decode_vis (pf : ℤ → ℤ → ℚ) (rate : ℚ) (vis_start : ℤ) : Except String Mode :=
  let vis_bits := (List.range 8).map (vis_bit pf rate vis_start)
  if vis_bits.sum % 2 = 0 then
    let vis_value := ((vis_bits.take 7).reverse).foldl (fun v b => v <<< 1 ||| b) 0
    match VIS_MAP vis_value with
    | some m => Except.ok m
    | none => Except.error "SSTV mode is unsupported"
  else Except.error "Error decoding VIS header: invalid parity bit"

/-- The luminance buffer `image_data` of `SSTVDecoder._decode_image_data`,
as a map from (line, channel, pixel) to the stored value.  The line index is
an integer because `_draw_image` computes line indices with integer
arithmetic. -/
def Img : Type := ℤ → ℕ → ℕ → ℤ

def initImg : Img := fun _ _ _ => 0

def updateImg (img : Img) (l c p : ℕ) (v : ℤ) : Img :=
  fun l' c' p' => if l' = (l : ℤ) ∧ c' = c ∧ p' = p then v else img l' c' p'

/-- The cursor correction applied before the first line of
`SSTVDecoder._decode_image_data`: when the sync channel index is positive
(`self.mode.CHAN_SYNC > 0 and line == 0`), `seq_start` is walked back by
`round((CHAN_OFFSETS[CHAN_SYNC] + SCAN_TIME) * sample_rate)` samples. -/
def first_line_walkback (m : Mode) (rate : ℚ) : ℤ :=
  if 0 < m.CHAN_SYNC then
    pyRound ((m.CHAN_OFFSETS.getD m.CHAN_SYNC 0 + m.SCAN_TIME) * rate)
  else 0

/-- The `for px in range(width)` loop of `SSTVDecoder._decode_image_data`.
`Except.error img` models the early `return image_data` when a pixel window
runs past the end of the sample buffer. -/
def pixel_loop (pf : ℤ → ℤ → ℚ) (m : Mode) (rate : ℚ) (nsamples : ℕ)
    (line chan : ℕ) (seq : ℤ) (pixel_time centre_window_time : ℚ)
    (pixel_window : ℤ) (img : Img) : Except Img Img :=
  (List.range m.LINE_WIDTH).foldlM (fun (img : Img) (px : ℕ) =>
    let chan_offset := m.CHAN_OFFSETS.getD chan 0
    let px_pos := pyRound ((seq : ℚ) +
      (chan_offset + (px : ℚ) * pixel_time - centre_window_time) * rate)
    let px_end := px_pos + pixel_window
    if (nsamples : ℤ) ≤ px_end then Except.error img
    else Except.ok (updateImg img line chan px (calc_lum (pf px_pos px_end)))) img

/-- The `for chan in range(channels)` loop of
`SSTVDecoder._decode_image_data`.  On the sync channel the cursor advances by
one line time (except at the very first channel of the very first line) and
is re-anchored by `align_sync`; `Except.error img` models the early
`return image_data` when `align_sync` reaches the end of the audio. -/
def chan_loop (pf : ℤ → ℤ → ℚ) (m : Mode) (rate : ℚ) (nsamples : ℕ)
    (line : ℕ) (centre0 : ℚ) (pwin0 : ℤ) (st : ℤ × Img) : Except Img (ℤ × Img) :=
  (List.range m.CHAN_COUNT).foldlM (fun st chan => do
    let seq := st.1
    let img := st.2
    let seq ←
      if chan = m.CHAN_SYNC then do
        let seq := if 0 < line ∨ 0 < chan then seq + pyRound (m.LINE_TIME * rate) else seq
        match align_sync pf m rate nsamples seq true with
        | none => Except.error img
        | some s => pure s
      else pure seq
    let pixel_time := if m.HAS_HALF_SCAN ∧ 0 < chan then m.HALF_PIXEL_TIME else m.PIXEL_TIME
    let centre := if m.HAS_HALF_SCAN then pixel_time * m.WINDOW_FACTOR / 2 else centre0
    let pwin := if m.HAS_HALF_SCAN then pyRound (centre * 2 * rate) else pwin0
    let img ← pixel_loop pf m rate nsamples line chan seq pixel_time centre pwin img
    pure (seq, img)) st

/-- The `for line in range(height)` loop of
`SSTVDecoder._decode_image_data`, including the first-line cursor
walkback. -/
def line_loop (pf : ℤ → ℤ → ℚ) (m : Mode) (rate : ℚ) (nsamples : ℕ)
    (centre0 : ℚ) (pwin0 : ℤ) (seq0 : ℤ) : Except Img (ℤ × Img) :=
  (List.range m.LINE_COUNT).foldlM (fun st line =>
    let st := if line = 0 then (st.1 - first_line_walkback m rate, st.2) else st
    chan_loop pf m rate nsamples line centre0 pwin0 st) (seq0, initImg)

/-- `SSTVDecoder._decode_image_data`.  The only fatal outcome is the
`raise EOFError` when a mode with a leading start-sync pulse cannot align
that pulse; every truncation inside the line/channel/pixel loops returns the
partially filled buffer as a success. -/
def decode_image_data (pf : ℤ → ℤ → ℚ) (m : Mode) (rate : ℚ) (nsamples : ℕ)
    (image_start : ℤ) : Except String Img :=
  let centre0 := m.PIXEL_TIME * m.WINDOW_FACTOR / 2
  let pwin0 := pyRound (m.PIXEL_TIME * m.WINDOW_FACTOR * rate)
  let run : ℤ → Img := fun s =>
    match line_loop pf m rate nsamples centre0 pwin0 s with
    | Except.error img => img
    | Except.ok st => st.2
  if m.HAS_START_SYNC then
    match align_sync pf m rate nsamples image_start false with
    | none => Except.error "Reached end of audio before image data"
    | some s => Except.ok (run s)
  else Except.ok (run image_start)

/-- One output pixel of `SSTVDecoder._draw_image`, dispatching on channel
count and color format exactly as the source does; `none` models the
combinations the source leaves unassigned. -/
def draw_pixel (m : Mode) (d : Img) (y x : ℕ) : Option (ℤ × ℤ × ℤ) :=
  let odd_line : ℤ := (y : ℤ) % 2
  if m.CHAN_COUNT = 2 then
    if m.HAS_ALT_SCAN then
      if m.COLOR = COL_FMT.YUV then
        some (d y 0 x, d ((y : ℤ) - (odd_line - 1)) 1 x, d ((y : ℤ) - odd_line) 1 x)
      else none
    else none
  else if m.CHAN_COUNT = 3 then
    if m.COLOR = COL_FMT.GBR then some (d y 2 x, d y 0 x, d y 1 x)
    else if m.COLOR = COL_FMT.YUV then some (d y 0 x, d y 2 x, d y 1 x)
    else if m.COLOR = COL_FMT.RGB then some (d y 0 x, d y 1 x, d y 2 x)
    else none
  else none

/-- `SSTVDecoder._draw_image` as a map from output coordinates to pixels. -/
def draw_image (m : Mode) (d : Img) : ℕ → ℕ → Option (ℤ × ℤ × ℤ) :=
  fun y x => draw_pixel m d y x

/-- `SSTVDecoder.decode` (with `skip = 0`): header search, VIS decode, image
decode, image assembly.  `Except.ok none` is the "no SSTV signal found"
outcome. -/
def decode (pf : ℤ → ℤ → ℚ) (rate : ℚ) (nsamples : ℕ) :
    Except String (Option (ℕ → ℕ → Option (ℤ × ℤ × ℤ))) :=
  match find_header pf rate nsamples with
  | none => Except.ok none
  | some header_end =>
    match decode_vis pf rate header_end with
    | Except.error e => Except.error e
    | Except.ok m =>
      let vis_end_offset := header_end + pyRound (VIS_BIT_SIZE * 9 * rate)
      match decode_image_data pf m rate nsamples vis_end_offset with
      | Except.error e => Except.error e
      | Except.ok img => Except.ok (some (draw_image m img))

/-- A frequency oracle that reports silence everywhere. -/
def pfZero : ℤ → ℤ → ℚ := fun _ _ => 0

/-- A frequency oracle carrying one calibration header at offset 0 for a
sample rate of 1000 Hz (window size 10, break offset 300, second leader
offset 310, VIS-start offset 610). -/
def pfHeader : ℤ → ℤ → ℚ := fun a _ =>
  if a = 0 then 1900 else if a = 300 then 1200 else if a = 310 then 1900
  else if a = 610 then 1200 else 0

theorem Int.floor_le_pyRound (q : ℚ) : ⌊q⌋ ≤ pyRound q := by
  unfold pyRound
  dsimp only
  split
  · exact le_refl _
  · split
    · omega
    · split <;> omega

theorem pyRound_le_floor_add_one (q : ℚ) : pyRound q ≤ ⌊q⌋ + 1 := by
  unfold pyRound
  dsimp only
  split
  · omega
  · split
    · omega
    · split <;> omega

theorem pyRound_nonpos {q : ℚ} (h : q ≤ 0) : pyRound q ≤ 0 := by
  rcases eq_or_lt_of_le h with rfl | hlt
  · norm_num [pyRound]
  · have hf : ⌊q⌋ < 0 := by
      have := Int.floor_lt.mpr (by exact_mod_cast hlt)
      simpa using this
    have := pyRound_le_floor_add_one q
    omega

theorem pyRound_ge_of_le {q : ℚ} {z : ℤ} (h : (z : ℚ) ≤ q) : z ≤ pyRound q := by
  have hf : z ≤ ⌊q⌋ := Int.le_floor.mpr h
  have := Int.floor_le_pyRound q
  omega

/-- C3 counterexample: the claim "the per-channel offset list is strictly
increasing in channel index" fails on the code: for Scottie 1 the sync
channel (index 2) has the smallest offset, so `S1.CHAN_OFFSETS`
(= [0.15024, 0.28998, 0.0105]) is not strictly increasing. -/
theorem scottie_offsets_not_increasing : ¬ List.Chain' (· < ·) S1.CHAN_OFFSETS := by
  norm_num [S1, scottie_additional, Scottie.SYNC_PULSE, Scottie.SYNC_PORCH,
    Scottie.SEP_PULSE, List.chain'_cons]

/-- C3 (amended): for every Mode Descriptor in the registry the derived
timing fields (line duration, per-channel offsets, pixel duration) are
strictly positive; the per-channel offsets are strictly increasing in channel
index for the Robot and Martin modes, while for the Scottie modes channels 0
and 1 are increasing and the sync channel (index 2) has the smallest
offset. -/
theorem mode_timing_amended :
    (∀ m ∈ registryModes,
      0 < m.LINE_TIME ∧ 0 < m.PIXEL_TIME ∧ ∀ o ∈ m.CHAN_OFFSETS, 0 < o)
    ∧ List.Chain' (· < ·) R36.CHAN_OFFSETS
    ∧ List.Chain' (· < ·) R72.CHAN_OFFSETS
    ∧ List.Chain' (· < ·) M1.CHAN_OFFSETS
    ∧ List.Chain' (· < ·) M2.CHAN_OFFSETS
    ∧ (S1.CHAN_OFFSETS.getD 2 0 < S1.CHAN_OFFSETS.getD 0 0
        ∧ S1.CHAN_OFFSETS.getD 0 0 < S1.CHAN_OFFSETS.getD 1 0)
    ∧ (S2.CHAN_OFFSETS.getD 2 0 < S2.CHAN_OFFSETS.getD 0 0
        ∧ S2.CHAN_OFFSETS.getD 0 0 < S2.CHAN_OFFSETS.getD 1 0)
    ∧ (SDX.CHAN_OFFSETS.getD 2 0 < SDX.CHAN_OFFSETS.getD 0 0
        ∧ SDX.CHAN_OFFSETS.getD 0 0 < SDX.CHAN_OFFSETS.getD 1 0) := by
  norm_num [registryModes, R36, R72, M1, M2, S1, S2, SDX,
    martin_additional, scottie_additional,
    Martin.SYNC_PULSE, Martin.SYNC_PORCH, Martin.SEP_PULSE,
    Scottie.SYNC_PULSE, Scottie.SYNC_PORCH, Scottie.SEP_PULSE,
    RobotColor.SYNC_PULSE, RobotColor.SYNC_PORCH, RobotColor.SEP_PULSE,
    RobotColor.SEP_PORCH, List.chain'_cons]

/-- C7 counterexample: the luminance mapping of the code is not the claimed
`round((freq - 1500) / ((2300 - 1500) / 255))` clamped: the code divides by
the truncated constant `3.1372549`.  At `freq = 1500 + 1.5 * 3.1372549 =`
`1504.70588235` the code's quotient is exactly 3/2 (banker's rounding gives
2) while the claimed formula's quotient is just below 3/2 (rounds to 1). -/
theorem calc_lum_divisor_counterexample :
    calc_lum (150470588235 / 100000000) = 2
    ∧ claimedLum (150470588235 / 100000000) = 1 := by
  constructor <;> norm_num [calc_lum, claimedLum, pyRound]

/-- C7 (amended): the code's luminance mapping is
`round_half_even((freq - 1500) / 3.1372549)` clamped to `[0, 255]`, where
`3.1372549` is a truncation of `(2300 - 1500) / 255`; all the particular
values claimed hold: the result always lies in `[0, 255]`, 1500 Hz maps to
0, 2300 Hz maps to 255, 1900 Hz maps to 128 (within the claimed margin of
one), and frequencies outside `[1500, 2300]` clamp to the endpoints. -/
theorem calc_lum_props :
    (∀ f : ℚ, 0 ≤ calc_lum f ∧ calc_lum f ≤ 255)
    ∧ calc_lum 1500 = 0
    ∧ calc_lum 2300 = 255
    ∧ |calc_lum 1900 - 128| ≤ 1
    ∧ (∀ f : ℚ, f ≤ 1500 → calc_lum f = 0)
    ∧ (∀ f : ℚ, 2300 ≤ f → calc_lum f = 255) := by
  have hlow : ∀ f : ℚ, f ≤ 1500 → calc_lum f = 0 := by
    intro f hf
    have hq : (f - 1500) / 3.1372549 ≤ 0 := by
      apply div_nonpos_of_nonpos_of_nonneg <;> [linarith; norm_num]
    have h0 := pyRound_nonpos hq
    show min (max (pyRound ((f - 1500) / 3.1372549)) 0) 255 = 0
    rw [max_eq_right h0]
    norm_num
  have hhigh : ∀ f : ℚ, 2300 ≤ f → calc_lum f = 255 := by
    intro f hf
    have hq : ((255 : ℤ) : ℚ) ≤ (f - 1500) / 3.1372549 := by
      rw [le_div_iff₀ (by norm_num)]
      push_cast
      linarith
    have h255 : (255 : ℤ) ≤ pyRound ((f - 1500) / 3.1372549) := pyRound_ge_of_le hq
    show min (max (pyRound ((f - 1500) / 3.1372549)) 0) 255 = 255
    rw [max_eq_left (le_trans (by norm_num) h255), min_eq_right h255]
  refine ⟨?_, hlow 1500 (by norm_num), hhigh 2300 (by norm_num), ?_, hlow, hhigh⟩
  · intro f
    exact ⟨le_min (le_max_right _ _) (by norm_num), min_le_right _ _⟩
  · have : calc_lum 1900 = 128 := by norm_num [calc_lum, pyRound]
    rw [this]
    norm_num

/-- C7 amended-theorem witness: the clamping clauses evaluated at the
concrete out-of-band frequencies 1000 Hz and 9999 Hz. -/
theorem calc_lum_props_witness : calc_lum 1000 = 0 ∧ calc_lum 9999 = 255 :=
  ⟨calc_lum_props.2.2.2.2.1 1000 (by norm_num),
   calc_lum_props.2.2.2.2.2 9999 (by norm_num)⟩

/-- C8 counterexample: the claim "for every resolved mode the decoder walks
the cursor back by exactly one channel-time before the first line" fails:
for Martin 1 (sync channel 0) no walkback happens at all, and for Scottie 1
the walkback amount differs from one channel-time (at 44100 Hz: 6559 samples
walked back versus 6163 samples for one channel-time). -/
theorem first_line_walkback_counterexample :
    first_line_walkback M1 44100 = 0
    ∧ first_line_walkback M1 44100 ≠ pyRound (M1.CHAN_TIME * 44100)
    ∧ first_line_walkback S1 44100 ≠ pyRound (S1.CHAN_TIME * 44100) := by
  refine ⟨by norm_num [first_line_walkback, M1, martin_additional], ?_, ?_⟩
  · have h1 : first_line_walkback M1 44100 = 0 := by
      norm_num [first_line_walkback, M1, martin_additional]
    have h2 : pyRound (M1.CHAN_TIME * 44100) = 6483 := by
      norm_num [pyRound, M1, martin_additional, Martin.SEP_PULSE]
    omega
  · have h1 : first_line_walkback S1 44100 = 6559 := by
      norm_num [first_line_walkback, pyRound, S1, scottie_additional,
        Scottie.SYNC_PULSE, Scottie.SYNC_PORCH, Scottie.SEP_PULSE]
    have h2 : pyRound (S1.CHAN_TIME * 44100) = 6163 := by
      norm_num [pyRound, S1, scottie_additional, Scottie.SEP_PULSE]
    omega

/-- C8 (amended): the first-line cursor walkback happens only for modes
whose sync channel index is positive (the Scottie family), and for those the
amount is `round((sync_pulse + sync_porch + scan_time) * sample_rate)`
samples — the sync channel's offset plus one scan time, not one
channel-time; for the Martin and Robot modes (sync channel 0) the cursor is
not walked back. -/
theorem first_line_walkback_eq (rate : ℚ) :
    first_line_walkback S1 rate = pyRound ((S1.SYNC_PULSE + S1.SYNC_PORCH + S1.SCAN_TIME) * rate)
    ∧ first_line_walkback S2 rate = pyRound ((S2.SYNC_PULSE + S2.SYNC_PORCH + S2.SCAN_TIME) * rate)
    ∧ first_line_walkback SDX rate = pyRound ((SDX.SYNC_PULSE + SDX.SYNC_PORCH + SDX.SCAN_TIME) * rate)
    ∧ first_line_walkback M1 rate = 0
    ∧ first_line_walkback M2 rate = 0
    ∧ first_line_walkback R36 rate = 0
    ∧ first_line_walkback R72 rate = 0 := by
  refine ⟨?_, ?_, ?_, ?_, ?_, ?_, ?_⟩ <;>
    norm_num [first_line_walkback, S1, S2, SDX, M1, M2, R36, R72,
      scottie_additional, martin_additional,
      Scottie.SYNC_PULSE, Scottie.SYNC_PORCH, Scottie.SEP_PULSE]

/-- C4 counterexample: the claim says that on even lines both chroma
components come from the current line's channel 1.  With the buffer
`d j c p = j` (each cell holding its line index), line 0 would then yield
the pixel `(0, 0, 0)`; the code instead borrows the next line's channel 1
for the middle component and yields `(0, 1, 0)`. -/
theorem draw_pixel_r36_counterexample :
    draw_pixel R36 (fun j _ _ => j) 0 0 ≠ some ((0 : ℤ), 0, 0) := by
  simp [draw_pixel, R36]

/-- C4 (amended): for Robot 36 the luma component is the current line's
channel 0; on even lines the chroma pair is (next line's channel 1, current
line's channel 1), and on odd lines it is (current line's channel 1,
previous line's channel 1) — the parity roles are the reverse of the
claim. -/
theorem draw_pixel_r36_parity (d : Img) (y x : ℕ) :
    (y % 2 = 0 →
      draw_pixel R36 d y x = some (d y 0 x, d ((y : ℤ) + 1) 1 x, d y 1 x))
    ∧ (y % 2 = 1 →
      draw_pixel R36 d y x = some (d y 0 x, d y 1 x, d ((y : ℤ) - 1) 1 x)) := by
  constructor
  · intro hy
    have h2 : ((y : ℤ)) % 2 = 0 := by omega
    simp [draw_pixel, R36, h2]
  · intro hy
    have h2 : ((y : ℤ)) % 2 = 1 := by omega
    simp [draw_pixel, R36, h2]

/-- The concrete luminance buffer `d j c p = 100 j + 10 c + p` used to
instantiate the Robot 36 assembly theorem. -/
def dWit : Img := fun j c p => j * 100 + (c : ℤ) * 10 + (p : ℤ)

/-- C4 amended-theorem witness: the parity cases evaluated on lines 2 and 3
of a concrete buffer. -/
theorem draw_pixel_r36_parity_witness :
    draw_pixel R36 dWit 2 5 = some (205, 315, 215)
    ∧ draw_pixel R36 dWit 3 5 = some (305, 315, 215) := by
  constructor
  · have h := (draw_pixel_r36_parity dWit 2 5).1 rfl
    rw [h]
    norm_num [dWit]
  · have h := (draw_pixel_r36_parity dWit 3 5).2 rfl
    rw [h]
    norm_num [dWit]

/-- C6: barycentric peak interpolation returns
`x + (right - left) / (left + center + right)` with the neighbour lookups
saturating at the array edges, returns 0 when the three-bin sum is zero, and
on any magnitude spectrum whose (first-maximal) peak bin has equal left and
right neighbour energies it returns the peak bin index exactly. -/
theorem barycentric_spec (bins : List ℚ) (x : ℕ) (hx : x < bins.length) :
    (bins.getD (x - 1) 0 + bins.getD x 0 + bins.getD (min (bins.length - 1) (x + 1)) 0 ≠ 0 →
      barycentric_peak_interp bins x =
        (x : ℚ) + (bins.getD (min (bins.length - 1) (x + 1)) 0 - bins.getD (x - 1) 0) /
          (bins.getD (x - 1) 0 + bins.getD x 0 + bins.getD (min (bins.length - 1) (x + 1)) 0))
    ∧ (bins.getD (x - 1) 0 + bins.getD x 0 + bins.getD (min (bins.length - 1) (x + 1)) 0 = 0 →
      barycentric_peak_interp bins x = 0)
    ∧ ((∀ q ∈ bins, 0 ≤ q) →
      (∀ i (h : i < bins.length), bins[i] ≤ bins.getD x 0) →
      (∀ i (h : i < bins.length), i < x → bins[i] < bins.getD x 0) →
      bins.getD (x - 1) 0 = bins.getD (min (bins.length - 1) (x + 1)) 0 →
      barycentric_peak_interp bins x = x) := by
  have hx1 : x - 1 < bins.length := lt_of_le_of_lt (Nat.sub_le x 1) hx
  have hxr : min (bins.length - 1) (x + 1) < bins.length := by omega
  refine ⟨?_, ?_, ?_⟩
  · intro h
    simp only [barycentric_peak_interp]
    rw [if_neg h]
    ring
  · intro h
    simp only [barycentric_peak_interp]
    rw [if_pos h]
  · intro hnn hmax hfirst heq
    by_cases hd : bins.getD (x - 1) 0 + bins.getD x 0 + bins.getD (min (bins.length - 1) (x + 1)) 0 = 0
    · have hl : 0 ≤ bins.getD (x - 1) 0 := by
        rw [List.getD_eq_getElem bins 0 hx1]
        exact hnn _ (List.getElem_mem hx1)
      have hc : 0 ≤ bins.getD x 0 := by
        rw [List.getD_eq_getElem bins 0 hx]
        exact hnn _ (List.getElem_mem hx)
      have hr : 0 ≤ bins.getD (min (bins.length - 1) (x + 1)) 0 := by
        rw [List.getD_eq_getElem bins 0 hxr]
        exact hnn _ (List.getElem_mem hxr)
      have hc0 : bins.getD x 0 = 0 := by linarith
      have hx0 : x = 0 := by
        by_contra hne
        have h0len : 0 < bins.length := by omega
        have := hfirst 0 h0len (Nat.pos_of_ne_zero hne)
        have h0nn : 0 ≤ bins[0] := hnn _ (List.getElem_mem h0len)
        rw [hc0] at this
        linarith
      subst hx0
      simp only [barycentric_peak_interp]
      rw [if_pos hd]
      norm_num
    · simp only [barycentric_peak_interp]
      rw [if_neg hd, heq]
      simp

/-- C6 witness: on the symmetric spectrum `[1, 4, 1]` with peak bin 1 the
interpolated peak is exactly 1. -/
theorem barycentric_spec_witness : barycentric_peak_interp [1, 4, 1] 1 = 1 := by
  have h := (barycentric_spec [1, 4, 1] 1 (by norm_num)).2.2
    (by intro q hq; fin_cases hq <;> norm_num)
    (by intro i h; have h3 : i < 3 := by simpa using h
        interval_cases i <;> norm_num)
    (by intro i h hi; have h3 : i < 3 := by simpa using h
        interval_cases i
        norm_num)
    (by norm_num)
  simpa using h

/-- C10: on a bin array of non-negative magnitudes with a valid index `x`
and non-zero three-bin sum, the interpolated peak lies within one bin of
`x`. -/
theorem barycentric_within_one (bins : List ℚ) (x : ℕ)
    (hnn : ∀ q ∈ bins, 0 ≤ q) (hx : x < bins.length)
    (hd : bins.getD (x - 1) 0 + bins.getD x 0 + bins.getD (min (bins.length - 1) (x + 1)) 0 ≠ 0) :
    (x : ℚ) - 1 ≤ barycentric_peak_interp bins x
    ∧ barycentric_peak_interp bins x ≤ (x : ℚ) + 1 := by
  have hx1 : x - 1 < bins.length := lt_of_le_of_lt (Nat.sub_le x 1) hx
  have hxr : min (bins.length - 1) (x + 1) < bins.length := by omega
  have hl : 0 ≤ bins.getD (x - 1) 0 := by
    rw [List.getD_eq_getElem bins 0 hx1]
    exact hnn _ (List.getElem_mem hx1)
  have hc : 0 ≤ bins.getD x 0 := by
    rw [List.getD_eq_getElem bins 0 hx]
    exact hnn _ (List.getElem_mem hx)
  have hr : 0 ≤ bins.getD (min (bins.length - 1) (x + 1)) 0 := by
    rw [List.getD_eq_getElem bins 0 hxr]
    exact hnn _ (List.getElem_mem hxr)
  have hpos : 0 < bins.getD (x - 1) 0 + bins.getD x 0 + bins.getD (min (bins.length - 1) (x + 1)) 0 :=
    lt_of_le_of_ne (by linarith) (Ne.symm hd)
  have heq : barycentric_peak_interp bins x =
      (bins.getD (min (bins.length - 1) (x + 1)) 0 - bins.getD (x - 1) 0) /
        (bins.getD (x - 1) 0 + bins.getD x 0 + bins.getD (min (bins.length - 1) (x + 1)) 0)
        + (x : ℚ) := by
    simp only [barycentric_peak_interp]
    rw [if_neg hd]
  have hub : (bins.getD (min (bins.length - 1) (x + 1)) 0 - bins.getD (x - 1) 0) /
      (bins.getD (x - 1) 0 + bins.getD x 0 + bins.getD (min (bins.length - 1) (x + 1)) 0) ≤ 1 := by
    rw [div_le_one hpos]
    linarith
  have hlb : (-1 : ℚ) ≤ (bins.getD (min (bins.length - 1) (x + 1)) 0 - bins.getD (x - 1) 0) /
      (bins.getD (x - 1) 0 + bins.getD x 0 + bins.getD (min (bins.length - 1) (x + 1)) 0) := by
    rw [le_div_iff₀ hpos]
    linarith
  constructor <;> rw [heq] <;> linarith

/-- C10 witness: on the spectrum `[2, 5, 3]` with index 1 the interpolated
peak `1.1` lies within `[0, 2]`. -/
theorem barycentric_within_one_witness :
    ((1 : ℕ) : ℚ) - 1 ≤ barycentric_peak_interp [2, 5, 3] 1
    ∧ barycentric_peak_interp [2, 5, 3] 1 ≤ ((1 : ℕ) : ℚ) + 1 :=
  barycentric_within_one [2, 5, 3] 1
    (by intro q hq; fin_cases hq <;> norm_num)
    (by norm_num)
    (by norm_num)

/-- If no searched position exceeds 1350 Hz, the `_align_sync` search loop
runs to the end of its range and its loop variable ends at the last searched
position. -/
theorem sync_scan_no_break (pf : ℤ → ℤ → ℚ) (w : ℤ) :
    ∀ fuel : ℕ, ∀ cur : ℤ, 1 ≤ fuel →
    (∀ j : ℕ, j + 1 < fuel → pf (cur + j) (cur + j + w) ≤ 1350) →
    sync_scan pf w cur fuel = cur + fuel - 1 := by
  intro fuel
  induction fuel using Nat.strong_induction_on with
  | _ fuel ih =>
    intro cur h1 hq
    match fuel, h1 with
    | 1, _ => simp [sync_scan]
    | (n + 2), _ =>
      have h0 : pf cur (cur + w) ≤ 1350 := by
        have := hq 0 (by omega)
        simpa using this
      have hrec := ih (n + 1) (by omega) (cur + 1) (by omega) ?_
      · show (if 1350 < pf cur (cur + w) then cur
            else sync_scan pf w (cur + 1) (n + 1)) = cur + (n + 2 : ℕ) - 1
        rw [if_neg (not_lt.mpr h0), hrec]
        push_cast
        ring
      · intro j hj
        have h := hq (j + 1) (by omega)
        have e1 : cur + ((j + 1 : ℕ) : ℤ) = cur + 1 + (j : ℤ) := by push_cast; ring
        rw [e1] at h
        exact h

/-- C9 (amended): the Sync Aligner reports end-of-buffer exactly when the
buffer holds at most `align_start + sync_window` samples — including the
case where the first window fits exactly flush with the end — and when every
searched position (up to `nsamples - sync_window - 1`, one short of the last
position where a window would still fit) stays at or below 1350 Hz it
returns the offset computed from the midpoint of position
`nsamples - sync_window - 1`. -/
theorem align_sync_characterization (pf : ℤ → ℤ → ℚ) (m : Mode) (rate : ℚ)
    (nsamples : ℕ) (start : ℤ) (sos : Bool) :
    (align_sync pf m rate nsamples start sos = none
      ↔ (nsamples : ℤ) ≤ start + sync_window m rate)
    ∧ (start + sync_window m rate < (nsamples : ℤ) →
      (∀ c : ℤ, start ≤ c → c + sync_window m rate < (nsamples : ℤ) →
        pf c (c + sync_window m rate) ≤ 1350) →
      align_sync pf m rate nsamples start sos =
        some (if sos then
            (nsamples : ℤ) - sync_window m rate - 1 + Int.fdiv (sync_window m rate) 2
              - pyRound (m.SYNC_PULSE * rate)
          else (nsamples : ℤ) - sync_window m rate - 1 + Int.fdiv (sync_window m rate) 2)) := by
  constructor
  · simp only [align_sync]
    split
    · simp
      omega
    · simp
      omega
  · intro hlt hall
    simp only [align_sync]
    rw [if_neg (by omega)]
    have hfuel : (1 : ℕ) ≤ ((nsamples : ℤ) - sync_window m rate - start).toNat := by omega
    have hscan := sync_scan_no_break pf (sync_window m rate)
      (((nsamples : ℤ) - sync_window m rate - start).toNat) start hfuel ?_
    · rw [hscan]
      have e : start + ((((nsamples : ℤ) - sync_window m rate - start).toNat : ℤ)) - 1
          = (nsamples : ℤ) - sync_window m rate - 1 := by omega
      rw [e]
    · intro j hj
      have hjz : (j : ℤ) + 1 < (nsamples : ℤ) - sync_window m rate - start := by omega
      exact hall (start + j) (by omega) (by omega)

/-- C9 counterexample: the claim says end-of-buffer is reported only when
the first search window extends past the available samples.  For Martin 1
at 44100 Hz the window is 300 samples; with a 300-sample buffer and
`align_start = 0` the first window fits exactly (it does not extend past the
buffer), yet `_align_sync` returns the end-of-buffer result. -/
theorem align_sync_flush_counterexample :
    align_sync pfZero M1 44100 300 0 true = none
    ∧ (0 : ℤ) + sync_window M1 44100 ≤ 300 := by
  constructor
  · norm_num [align_sync, sync_window, pyRound, M1, martin_additional, Martin.SYNC_PULSE]
  · norm_num [sync_window, pyRound, M1, martin_additional, Martin.SYNC_PULSE]

/-- C9 amended-theorem witness: with a silent buffer of 1000 samples
(no position ever exceeds 1350 Hz), Martin 1 at 44100 Hz aligns to
`some 635` = (1000 - 300 - 1) + 150 - 214. -/
theorem align_sync_characterization_witness :
    align_sync pfZero M1 44100 1000 0 true = some 635 := by
  have h := (align_sync_characterization pfZero M1 44100 1000 0 true).2
    (by norm_num [sync_window, pyRound, M1, martin_additional, Martin.SYNC_PULSE])
    (fun c _ _ => by norm_num [pfZero])
  rw [h]
  have hw : sync_window M1 44100 = 300 := by
    norm_num [sync_window, pyRound, M1, martin_additional, Martin.SYNC_PULSE]
  have hp : pyRound (M1.SYNC_PULSE * 44100) = 214 := by
    norm_num [pyRound, M1, martin_additional, Martin.SYNC_PULSE]
  rw [hw, hp]
  norm_num [Int.fdiv]

/-- C2 counterexample: the claim says image decoding never aborts with a
fatal error for any mode, including modes with a leading start-sync pulse.
For Scottie 1 (which has a leading start-sync pulse) on an empty sample
buffer, the initial start-sync alignment hits the end of the audio and
`_decode_image_data` raises `EOFError` instead of returning a partial
buffer. -/
theorem decode_image_data_start_sync_eof :
    decode_image_data pfZero S1 44100 0 0 =
      Except.error "Reached end of audio before image data" := by
  norm_num [decode_image_data, align_sync, sync_window, pyRound, S1,
    scottie_additional, Scottie.SYNC_PULSE]

/-- C2 (amended): image decoding aborts with a fatal error exactly when the
mode declares a leading start-sync pulse and the initial start-sync
alignment reaches the end of the buffer; in every other situation —
including every truncation inside the line/channel/pixel loops, via the
Sync Aligner or via a pixel window running past the last sample — the
partially filled luminance buffer is returned as a success. -/
theorem decode_image_data_partial (pf : ℤ → ℤ → ℚ) (m : Mode) (rate : ℚ)
    (nsamples : ℕ) (image_start : ℤ) :
    (∃ e, decode_image_data pf m rate nsamples image_start = Except.error e)
    ↔ (m.HAS_START_SYNC = true
        ∧ align_sync pf m rate nsamples image_start false = none) := by
  simp only [decode_image_data]
  cases hss : m.HAS_START_SYNC
  · simp only [Bool.false_eq_true, if_false]
    constructor
    · rintro ⟨e, he⟩
      cases h : line_loop pf m rate nsamples (m.PIXEL_TIME * m.WINDOW_FACTOR / 2)
          (pyRound (m.PIXEL_TIME * m.WINDOW_FACTOR * rate)) image_start <;>
        simp [h] at he
    · rintro ⟨h, _⟩
      exact absurd h (by simp)
  · simp only [if_true]
    cases halign : align_sync pf m rate nsamples image_start false
    · simp
    · rename_i s
      constructor
      · rintro ⟨e, he⟩
        cases h : line_loop pf m rate nsamples (m.PIXEL_TIME * m.WINDOW_FACTOR / 2)
            (pyRound (m.PIXEL_TIME * m.WINDOW_FACTOR * rate)) s <;>
          simp [h] at he
      · rintro ⟨_, hnone⟩
        simp at hnone

/-- The `_find_header` search loop returns `none` exactly when no stepped
position inside the range qualifies. -/
theorem header_scan_none_iff (pf : ℤ → ℤ → ℚ) (rate : ℚ) (jump stop : ℤ)
    (hj : 1 ≤ jump) :
    ∀ fuel : ℕ, ∀ cur : ℤ, (stop - cur).toNat < fuel →
    (header_scan pf rate jump stop cur fuel = none ↔
      ∀ k : ℕ, cur + k * jump < stop → headerQualifies pf rate (cur + k * jump) = false) := by
  intro fuel
  induction fuel using Nat.strong_induction_on with
  | _ fuel ih =>
    intro cur hfuel
    match fuel with
    | 0 => omega
    | f + 1 =>
      show (if cur < stop then
          if headerQualifies pf rate cur then some cur
          else header_scan pf rate jump stop (cur + jump) f
        else none) = none ↔ _
      by_cases hcs : cur < stop
      · rw [if_pos hcs]
        by_cases hq : headerQualifies pf rate cur
        · rw [if_pos hq]
          simp only [reduceCtorEq, false_iff, not_forall]
          push_neg
          refine ⟨0, by simpa using hcs, by simpa using hq⟩
        · rw [if_neg hq]
          rw [ih f (by omega) (cur + jump) (by omega)]
          constructor
          · intro h k hk
            match k with
            | 0 =>
              simpa using (Bool.eq_false_iff.mpr hq)
            | k + 1 =>
              have e1 : cur + ((k + 1 : ℕ) : ℤ) * jump = cur + jump + (k : ℤ) * jump := by
                push_cast
                ring
              rw [e1] at hk ⊢
              exact h k hk
          · intro h k hk
            have e1 : cur + jump + (k : ℤ) * jump = cur + ((k + 1 : ℕ) : ℤ) * jump := by
              push_cast
              ring
            rw [e1] at hk ⊢
            exact h (k + 1) hk
      · rw [if_neg hcs]
        simp only [true_iff]
        intro k hk
        have hk0 : (0 : ℤ) ≤ (k : ℤ) * jump := mul_nonneg (by positivity) (by omega)
        omega

/-- The `_find_header` search loop returns `some v` exactly when `v` is the
first stepped position inside the range that qualifies. -/
theorem header_scan_some_iff (pf : ℤ → ℤ → ℚ) (rate : ℚ) (jump stop : ℤ)
    (hj : 1 ≤ jump) :
    ∀ fuel : ℕ, ∀ cur : ℤ, (stop - cur).toNat < fuel → ∀ v : ℤ,
    (header_scan pf rate jump stop cur fuel = some v ↔
      ∃ k : ℕ, cur + k * jump < stop ∧ headerQualifies pf rate (cur + k * jump) = true ∧
        (∀ k' : ℕ, k' < k → headerQualifies pf rate (cur + k' * jump) = false) ∧
        v = cur + k * jump) := by
  intro fuel
  induction fuel using Nat.strong_induction_on with
  | _ fuel ih =>
    intro cur hfuel v
    match fuel with
    | 0 => omega
    | f + 1 =>
      show (if cur < stop then
          if headerQualifies pf rate cur then some cur
          else header_scan pf rate jump stop (cur + jump) f
        else none) = some v ↔ _
      by_cases hcs : cur < stop
      · rw [if_pos hcs]
        by_cases hq : headerQualifies pf rate cur
        · rw [if_pos hq]
          constructor
          · intro h
            refine ⟨0, by simpa using hcs, by simpa using hq, by omega, ?_⟩
            have := Option.some_injective _ h
            simp [← this]
          · rintro ⟨k, hk1, hk2, hk3, rfl⟩
            match k with
            | 0 => simp
            | k + 1 =>
              have := hk3 0 (by omega)
              simp only [Nat.cast_zero, zero_mul, add_zero] at this
              rw [this] at hq
              simp at hq
        · rw [if_neg hq]
          rw [ih f (by omega) (cur + jump) (by omega) v]
          constructor
          · rintro ⟨k, h1, h2, h3, h4⟩
            have e1 : cur + jump + (k : ℤ) * jump = cur + ((k + 1 : ℕ) : ℤ) * jump := by
              push_cast
              ring
            refine ⟨k + 1, by rw [← e1]; exact h1, by rw [← e1]; exact h2, ?_, by rw [← e1]; exact h4⟩
            intro k' hk'
            match k' with
            | 0 =>
              simpa using (Bool.eq_false_iff.mpr hq)
            | k' + 1 =>
              have e2 : cur + ((k' + 1 : ℕ) : ℤ) * jump = cur + jump + (k' : ℤ) * jump := by
                push_cast
                ring
              rw [e2]
              exact h3 k' (by omega)
          · rintro ⟨k, h1, h2, h3, rfl⟩
            match k with
            | 0 =>
              simp only [Nat.cast_zero, zero_mul, add_zero] at h2
              rw [h2] at hq
              simp at hq
            | k + 1 =>
              have e1 : cur + ((k + 1 : ℕ) : ℤ) * jump = cur + jump + (k : ℤ) * jump := by
                push_cast
                ring
              refine ⟨k, ?_, ?_, ?_, ?_⟩
              · rw [← e1]; exact h1
              · rw [← e1]; exact h2
              · intro k' hk'
                have e2 : cur + jump + (k' : ℤ) * jump = cur + ((k' + 1 : ℕ) : ℤ) * jump := by
                  push_cast
                  ring
                rw [e2]
                exact h3 (k' + 1) (by omega)
              · rw [e1]
      · rw [if_neg hcs]
        simp only [reduceCtorEq, false_iff, not_exists]
        intro k hk
        have hk0 : (0 : ℤ) ≤ (k : ℤ) * jump := mul_nonneg (by positivity) (by omega)
        omega

/-- C5: header detection slides the window from offset 0 in steps of
`jump_size` (2 ms of samples) and returns the first qualifying position plus
the full header size; exhausting the buffer yields `none`, and a `none`
header search makes `decode` return the "no signal" success `ok none`
rather than an error. -/
theorem find_header_characterization (pf : ℤ → ℤ → ℚ) (rate : ℚ) (nsamples : ℕ)
    (hj : 1 ≤ jump_size rate) :
    (∀ v : ℤ, find_header pf rate nsamples = some v ↔
      ∃ k : ℕ, (k : ℤ) * jump_size rate < (nsamples : ℤ) - header_size rate ∧
        headerQualifies pf rate ((k : ℤ) * jump_size rate) = true ∧
        (∀ k' : ℕ, k' < k → headerQualifies pf rate ((k' : ℤ) * jump_size rate) = false) ∧
        v = (k : ℤ) * jump_size rate + header_size rate)
    ∧ (find_header pf rate nsamples = none ↔
      ∀ k : ℕ, (k : ℤ) * jump_size rate < (nsamples : ℤ) - header_size rate →
        headerQualifies pf rate ((k : ℤ) * jump_size rate) = false)
    ∧ (find_header pf rate nsamples = none → decode pf rate nsamples = Except.ok none) := by
  have hfuel : (((nsamples : ℤ) - header_size rate) - 0).toNat
      < ((nsamples : ℤ) - header_size rate).toNat + 1 := by omega
  refine ⟨?_, ?_, ?_⟩
  · intro v
    simp only [find_header, Option.map_eq_some']
    constructor
    · rintro ⟨c, hc, rfl⟩
      obtain ⟨k, h1, h2, h3, rfl⟩ :=
        (header_scan_some_iff pf rate (jump_size rate) ((nsamples : ℤ) - header_size rate)
          hj (((nsamples : ℤ) - header_size rate).toNat + 1) 0 hfuel c).mp hc
      simp only [zero_add] at h1 h2 h3 ⊢
      exact ⟨k, h1, h2, fun k' hk' => by simpa using h3 k' hk', rfl⟩
    · rintro ⟨k, h1, h2, h3, rfl⟩
      refine ⟨(k : ℤ) * jump_size rate, ?_, rfl⟩
      apply (header_scan_some_iff pf rate (jump_size rate) ((nsamples : ℤ) - header_size rate)
        hj (((nsamples : ℤ) - header_size rate).toNat + 1) 0 hfuel _).mpr
      exact ⟨k, by simpa using h1, by simpa using h2,
        fun k' hk' => by simpa using h3 k' hk', by simp⟩
  · simp only [find_header, Option.map_eq_none']
    rw [header_scan_none_iff pf rate (jump_size rate) ((nsamples : ℤ) - header_size rate)
      hj (((nsamples : ℤ) - header_size rate).toNat + 1) 0 hfuel]
    constructor
    · intro h k hk
      simpa using h k (by simpa using hk)
    · intro h k hk
      simpa using h k (by simpa using hk)
  · intro h
    unfold decode
    rw [h]

/-- C5 witness: at a sample rate of 1000 Hz (jump 2, header size 640), on an
oracle carrying one calibration header at offset 0 and a 641-sample buffer,
the first qualifying position is 0 and the header search returns
`some 640`. -/
theorem find_header_characterization_witness :
    1 ≤ jump_size 1000 ∧ find_header pfHeader 1000 641 = some 640 := by
  have hj : (1 : ℤ) ≤ jump_size 1000 := by norm_num [jump_size, pyRound, JUMP_SIZE]
  refine ⟨hj, ?_⟩
  apply ((find_header_characterization pfHeader 1000 641 hj).1 640).mpr
  have hhs : header_size 1000 = 640 := by
    norm_num [header_size, pyRound, HDR_SIZE, VIS_START_BIT_OFFSET,
      SECOND_LEADER_OFFSET, BREAK_OFFSET, LEADER_TONE_SIZE, BREAK_SIZE, VIS_BIT_SIZE]
  refine ⟨0, ?_, ?_, ?_, ?_⟩
  · rw [hhs]
    norm_num
  · norm_num [headerQualifies, pfHeader, header_size, pyRound,
      SEARCH_WINDOW_SIZE, HDR_SIZE, VIS_START_BIT_OFFSET, SECOND_LEADER_OFFSET,
      BREAK_OFFSET, LEADER_TONE_SIZE, BREAK_SIZE, VIS_BIT_SIZE]
  · intro k' hk'
    exact absurd hk' (Nat.not_lt_zero k')
  · rw [hhs]
    norm_num

/-- C1: the VIS decoder classifies slot `i` as bit 1 exactly when its
estimated frequency is at most 1200 Hz (that is the definition of
`vis_bit`), fails with the invalid-parity error exactly when the sum of the
8 bits is odd, otherwise assembles the first 7 received bits LSB-first
(slot 0 is the lowest-order bit) into a 7-bit integer, fails with the
unsupported-VIS error when that integer is not a registry key, and returns
the registry's descriptor on success. -/
theorem decode_vis_characterization (pf : ℤ → ℤ → ℚ) (rate : ℚ) (vis_start : ℤ) :
    decode_vis pf rate vis_start =
      (if (vis_bit pf rate vis_start 0 + vis_bit pf rate vis_start 1 +
          vis_bit pf rate vis_start 2 + vis_bit pf rate vis_start 3 +
          vis_bit pf rate vis_start 4 + vis_bit pf rate vis_start 5 +
          vis_bit pf rate vis_start 6 + vis_bit pf rate vis_start 7) % 2 = 1
       then Except.error "Error decoding VIS header: invalid parity bit"
       else
        match VIS_MAP (vis_bit pf rate vis_start 0 + 2 * vis_bit pf rate vis_start 1 +
            4 * vis_bit pf rate vis_start 2 + 8 * vis_bit pf rate vis_start 3 +
            16 * vis_bit pf rate vis_start 4 + 32 * vis_bit pf rate vis_start 5 +
            64 * vis_bit pf rate vis_start 6) with
        | some m => Except.ok m
        | none => Except.error "SSTV mode is unsupported") := by
  have hb : ∀ i : ℕ, vis_bit pf rate vis_start i = 0 ∨ vis_bit pf rate vis_start i = 1 := by
    intro i
    unfold vis_bit
    dsimp only
    split
    · right
      rfl
    · left
      rfl
  have hexp : decode_vis pf rate vis_start =
      (if (vis_bit pf rate vis_start 0 + (vis_bit pf rate vis_start 1 +
          (vis_bit pf rate vis_start 2 + (vis_bit pf rate vis_start 3 +
          (vis_bit pf rate vis_start 4 + (vis_bit pf rate vis_start 5 +
          (vis_bit pf rate vis_start 6 + (vis_bit pf rate vis_start 7 + 0)))))))) % 2 = 0
       then
        match VIS_MAP ((((((((0 <<< 1 ||| vis_bit pf rate vis_start 6) <<< 1
            ||| vis_bit pf rate vis_start 5) <<< 1 ||| vis_bit pf rate vis_start 4) <<< 1
            ||| vis_bit pf rate vis_start 3) <<< 1 ||| vis_bit pf rate vis_start 2) <<< 1
            ||| vis_bit pf rate vis_start 1) <<< 1 ||| vis_bit pf rate vis_start 0)) with
        | some m => Except.ok m
        | none => Except.error "SSTV mode is unsupported"
       else Except.error "Error decoding VIS header: invalid parity bit") := rfl
  rw [hexp]
  obtain h0 | h0 := hb 0 <;> obtain h1 | h1 := hb 1 <;> obtain h2 | h2 := hb 2 <;>
    obtain h3 | h3 := hb 3 <;> obtain h4 | h4 := hb 4 <;> obtain h5 | h5 := hb 5 <;>
    obtain h6 | h6 := hb 6 <;> obtain h7 | h7 := hb 7 <;>
    rw [h0, h1, h2, h3, h4, h5, h6, h7] <;> rfl
